import Mathlib

/-!
Verification development for the calibration core in src/util.rs of the
camera-intrinsic repository.

Shallow embedding conventions:
- f32/f64 values are modelled as exact rationals (ℚ); all the claims under
  study are about exact copies, exact zeroing, index arithmetic and order
  comparisons, which the exact model captures faithfully.
- Rust panics (unwrap on None, out-of-bounds indexing) are modelled by
  Except.error; a normal return is Except.ok.
- External collaborators (the tiny_solver optimizer, the sqpnp absolute-pose
  solver, the camera-model family constructors and their projection formulas,
  and the homography routines from the optimization module) are parameters of
  the embedded functions: the code under verification only forwards values to
  them and inspects their results.
- HashMap<String, DVector<f64>> is modelled as an association list with unique
  keys; HashMap<u32, FeaturePoint> is modelled as the list of its entries in
  iteration order (the iteration order of one map value is fixed, which is
  what one call of the Rust code observes).
-/

/-- Observed 2D pixel position, exact model of glam::Vec2. -/
abbrev Vec2 := ℚ × ℚ

/-- Observed 3D target point, exact model of glam::Vec3. -/
abbrev Vec3 := ℚ × ℚ × ℚ

def vec2_add (a b : Vec2) : Vec2 := (a.1 + b.1, a.2 + b.2)

def vec2_sub (a b : Vec2) : Vec2 := (a.1 - b.1, a.2 - b.2)

def vec2_div (a : Vec2) (s : ℚ) : Vec2 := (a.1 / s, a.2 / s)

/-- One observed correspondence (detected_points::FeaturePoint). -/
structure FeaturePoint where
  p2d : Vec2
  p3d : Vec3
deriving DecidableEq

/-- One frame of detections (detected_points::FrameFeature): the id-keyed
feature map is represented by its entry list in iteration order. -/
structure FrameFeature where
  features : List (ℕ × FeaturePoint)
  img_w_h : ℕ × ℕ
  time_ns : ℤ
deriving DecidableEq

/-- Pose as rotation vector plus translation vector (types::RvecTvec), each a
length-3 dynamic vector. -/
structure RvecTvec where
  rvec : List ℚ
  tvec : List ℚ
deriving DecidableEq

/-- Embeds pub fn rtvec_to_na_dvec: tuple pose to a pair of dynamic vectors. -/
def rtvec_to_na_dvec (rtvec : (ℚ × ℚ × ℚ) × (ℚ × ℚ × ℚ)) : List ℚ × List ℚ :=
  ([rtvec.1.1, rtvec.1.2.1, rtvec.1.2.2], [rtvec.2.1, rtvec.2.2.1, rtvec.2.2.2])

/-- Camera-model capability value (camera_intrinsic_model::GenericModel):
parameter vector, image size, per-distortion-parameter bounds, fallible
unprojection, and the leading camera parameters used by model conversion.
The closed-form projection formulas of each family are external collaborators
and enter the embedding only through these capability fields. -/
structure GenericModel where
  params : List ℚ
  width : ℚ
  height : ℚ
  distortion_params_bound : List (ℕ × ℚ × ℚ)
  unproject_one : Vec2 → Option Vec2
  camera_params : List ℚ

/-- Capability set_params: replace the whole parameter vector. -/
def GenericModel.set_params (m : GenericModel) (p : List ℚ) : GenericModel :=
  { m with params := p }

/-- Robust loss attached to a residual block. -/
inductive LossTag where
  | huber (scale : ℚ)
deriving DecidableEq

/-- Construction arguments of the residual factors handed to the solver.  The
factor internals (projection formulas, autodiff) are external; the problem
records which factor was built and from which data.  A camera model captured
by a factor is recorded by its parameter vector. -/
inductive CostTag where
  | reprojection_factor (cam_params : List ℚ) (p3d : Vec3) (p2d : Vec2) (xy_same_focal : Bool)
  | ucm_init_focal_alpha_factor (model_params : List ℚ) (p3d : Vec3) (p2d : Vec2)
  | model_convert_factor (source_params target_params : List ℚ) (edge_pixels : ℕ) (steps : ℕ)
deriving DecidableEq

/-- One residual block registered with tiny_solver::Problem. -/
structure ResidualBlock where
  dim : ℕ
  var_blocks : List (String × ℕ)
  cost : CostTag
  loss : Option LossTag
deriving DecidableEq

/-- Model of tiny_solver::Problem: registered residual blocks, per-scalar
bounds and per-scalar fixed (disabled) variables. -/
structure Problem where
  residual_blocks : List ResidualBlock
  bounds : List (String × ℕ × ℚ × ℚ)
  fixed_vars : List (String × ℕ)
deriving DecidableEq

def Problem.new : Problem := ⟨[], [], []⟩

def Problem.add_residual_block (p : Problem) (dim : ℕ) (vars : List (String × ℕ))
    (cost : CostTag) (loss : Option LossTag) : Problem :=
  { p with residual_blocks := p.residual_blocks ++ [⟨dim, vars, cost, loss⟩] }

def Problem.set_variable_bounds (p : Problem) (name : String) (idx : ℕ)
    (lower upper : ℚ) : Problem :=
  { p with bounds := p.bounds ++ [(name, idx, lower, upper)] }

def Problem.fix_variable (p : Problem) (name : String) (idx : ℕ) : Problem :=
  { p with fixed_vars := p.fixed_vars ++ [(name, idx)] }

/-- Model of HashMap<String, na::DVector<f64>>: association list with unique
keys (the pipeline only ever uses the distinct keys params, rvec{i}, tvec{i}). -/
abbrev Values := List (String × List ℚ)

/-- Lookup, HashMap::get. -/
def Values.get : Values → String → Option (List ℚ)
  | [], _ => none
  | (k, v) :: rest, key => if k = key then some v else Values.get rest key

/-- Model of entry(key).or_insert(v): insert only when the key is absent. -/
def Values.or_insert (vs : Values) (key : String) (v : List ℚ) : Values :=
  match Values.get vs key with
  | some _ => vs
  | none => vs ++ [(key, v)]

/-- Model of map.get_mut(key).unwrap()[i] = x on a present key; on an absent
key the callers model the unwrap panic separately before using this. -/
def Values.set_idx : Values → String → ℕ → ℚ → Values
  | [], _, _, _ => []
  | (k, v) :: rest, key, i, x =>
    if k = key then (k, v.set i x) :: Values.set_idx rest key i x
    else (k, v) :: Values.set_idx rest key i x

/-- Model of map.remove(key): the removed value (if any) and the rest. -/
def Values.remove_get : Values → String → Option (List ℚ) × Values
  | [], _ => (none, [])
  | (k, v) :: rest, key =>
    if k = key then (some v, rest)
    else
      let r := Values.remove_get rest key
      (r.1, (k, v) :: r.2)

/-- External nonlinear solver collaborator (tiny_solver GaussNewtonOptimizer
optimize): consumes the problem and initial per-block values and returns the
converged per-block values, or none when it does not converge. -/
abbrev Solver := Problem → Values → Option Values

/-- External absolute-pose collaborator (sqpnp_simple::sqpnp_solve_glam):
matched 3D points and undistorted 2D points to a pose, or failure. -/
abbrev Pnp := List Vec3 → List Vec2 → Option ((ℚ × ℚ × ℚ) × (ℚ × ℚ × ℚ))

/-- Panic message used to model .unwrap() on None. -/
def unwrap_msg : String := "called Option::unwrap() on a None value"

/-- Embeds fn set_problem_parameter_bound (util.rs lines 24-37). -/
def set_problem_parameter_bound (problem : Problem) (generic_camera : GenericModel)
    (xy_same_focal : Bool) : Problem :=
  let shift : ℕ := if xy_same_focal then 1 else 0
  let p := problem.set_variable_bounds "params" 0 0 10000
  let p := p.set_variable_bounds "params" (1 - shift) 0 10000
  let p := p.set_variable_bounds "params" (2 - shift) 0 generic_camera.width
  let p := p.set_variable_bounds "params" (3 - shift) 0 generic_camera.height
  generic_camera.distortion_params_bound.foldl
    (fun acc b => acc.set_variable_bounds "params" (b.1 - shift) b.2.1 b.2.2) p

/-- Embeds fn set_problem_parameter_disabled (util.rs lines 38-58): for i in
0..disabled_distortions, fix parameter len-1-shift-i and zero its initial
value. -/
def set_problem_parameter_disabled (problem : Problem) (init_values : Values)
    (generic_camera : GenericModel) (xy_same_focal : Bool)
    (disabled_distortions : ℕ) : Problem × Values :=
  let shift : ℕ := if xy_same_focal then 1 else 0
  (List.range disabled_distortions).foldl
    (fun acc i =>
      let distortion_idx := generic_camera.params.length - 1 - shift - i
      (acc.1.fix_variable "params" distortion_idx,
       Values.set_idx acc.2 "params" distortion_idx 0))
    (problem, init_values)

/-- Embeds fn features_avg_center (util.rs lines 60-67): reduce by addition
then divide by the count; none models the unwrap panic on an empty map. -/
def features_avg_center (features : List (ℕ × FeaturePoint)) : Option Vec2 :=
  match features.map (fun kv => kv.2.p2d) with
  | [] => none
  | x :: xs => some (vec2_div (xs.foldl vec2_add x) (features.length : ℚ))

/-- Largest finite f32 value, exactly. -/
def f32_max : ℚ := 2 ^ 128 - 2 ^ 104

/-- Embeds fn features_covered_area (util.rs lines 68-80) exactly as written:
note that the fold updates xmax from acc.0 (the running minimum) and ymax
from acc.1, not from acc.2/acc.3, so the computed quantity is not the
bounding-box area. -/
def features_covered_area (features : List (ℕ × FeaturePoint)) : ℚ :=
  let r := (features.map (fun kv => kv.2.p2d)).foldl
    (fun acc e =>
      (min acc.1 e.1, min acc.2.1 e.2, max acc.1 e.1, max acc.2.1 e.2))
    (f32_max, f32_max, -f32_max, -f32_max)
  (r.2.2.1 - r.1) * (r.2.2.2 - r.2.1)

/-- Modelled from the spec: the axis-aligned 2D bounding-box area over all of
a frame feature list, the quantity section 4.2 of the spec says frame
selection number 1 maximizes.  Written from the spec words; compare with
features_covered_area, which embeds the code. -/
def features_bbox_area (features : List (ℕ × FeaturePoint)) : ℚ :=
  match features.map (fun kv => kv.2.p2d) with
  | [] => 0
  | x :: xs =>
    let xmin := xs.foldl (fun a e => min a e.1) x.1
    let xmax := xs.foldl (fun a e => max a e.1) x.1
    let ymin := xs.foldl (fun a e => min a e.2) x.2
    let ymax := xs.foldl (fun a e => max a e.2) x.2
    (xmax - xmin) * (ymax - ymin)

/-- Embeds fn vec2_distance2 (util.rs lines 82-85). -/
def vec2_distance2 (v0 v1 : Vec2) : ℚ :=
  let v := vec2_sub v0 v1
  v.1 * v.1 + v.2 * v.2

/-- Accumulating loop of find_best_two_frames (util.rs lines 141-156): track
the maximum detection count and the list of indices attaining it. -/
def max_detection_go : List (Option FrameFeature) → ℕ → ℕ → List ℕ → ℕ × List ℕ
  | [], _, max_detection, idxs => (max_detection, idxs)
  | none :: rest, i, m, idxs => max_detection_go rest (i + 1) m idxs
  | some f :: rest, i, m, idxs =>
    if m < f.features.length then max_detection_go rest (i + 1) f.features.length [i]
    else if f.features.length < m then max_detection_go rest (i + 1) m idxs
    else max_detection_go rest (i + 1) m (idxs ++ [i])

/-- Candidate set of find_best_two_frames: indices of frames attaining the
maximum detection count. -/
def max_detection_idxs (frames : List (Option FrameFeature)) : List ℕ :=
  (max_detection_go frames 0 0 []).2

/-- Feature list of frame i, modelling detected_feature_frames[i].clone()
.unwrap().features; candidate indices are always present, the empty default
is never reached from the candidate set. -/
def frame_features_at (frames : List (Option FrameFeature)) (i : ℕ) :
    List (ℕ × FeaturePoint) :=
  match frames.getD i none with
  | some f => f.features
  | none => []

/-- Embeds pub fn find_best_two_frames (util.rs lines 140-183).  Rust slice
sort_by is a stable ascending sort; so is List.mergeSort with the same key
comparison (partial_cmp never sees a NaN here since the exact model has
none).  The error value models the unwrap panics inside the function. -/
def find_best_two_frames (frames : List (Option FrameFeature)) :
    Except String (ℕ × ℕ) :=
  let cands := max_detection_idxs frames
  match cands.mapM (fun i =>
      match features_avg_center (frame_features_at frames i) with
      | some c => Except.ok (i, c)
      | none => (Except.error unwrap_msg : Except String (ℕ × Vec2))) with
  | .error e => .error e
  | .ok v0 =>
    match v0.map (fun p => p.2) with
    | [] => .error unwrap_msg
    | c :: cs =>
      let avg_all := vec2_div (cs.foldl vec2_add c) (v0.length : ℚ)
      let v0s := v0.mergeSort (fun a b =>
        decide (vec2_distance2 a.2 avg_all ≤ vec2_distance2 b.2 avg_all))
      let v1 := cands.map (fun i => (i, features_covered_area (frame_features_at frames i)))
      let v1s := v1.mergeSort (fun a b => decide (a.2 ≤ b.2))
      match v1s.getLast?, v0s.getLast? with
      | some a, some b => .ok (a.1, b.1)
      | _, _ => .error unwrap_msg

/-- Embeds the sort of the validator (util.rs line 496): errors ascending. -/
def validation_sorted_errors (errors : List ℚ) : List ℚ :=
  errors.mergeSort (fun a b => decide (a ≤ b))

/-- Embeds the median report of validation (util.rs lines 497-500): the
element at index len/2 of the ascending-sorted errors.  The default value is
only reached for an empty error list, where the Rust indexing panics. -/
def validation_median (errors : List ℚ) : ℚ :=
  (validation_sorted_errors errors).getD (errors.length / 2) 0

/-- Embeds the trimmed-mean report of validation (util.rs lines 501-509):
take the first len*99/100 sorted errors, divide each by that count and sum. -/
def validation_avg99 (errors : List ℚ) : ℚ :=
  let len_99_percent := errors.length * 99 / 100
  (((validation_sorted_errors errors).take len_99_percent).map
    (fun p => p / (len_99_percent : ℚ))).sum

/-- Embeds the error collection of pub fn validation (util.rs lines 441-493):
one error per feature of each present frame, indexing rtvec_list by the
enumeration index of the present frames; an out-of-range index is the modelled
panic.  The per-point error itself (isometry transform, projection, square
root) is irrational in general and is passed in as a collaborator function. -/
def validation_collect (reproj_err : RvecTvec → FeaturePoint → ℚ)
    (rtvec_list : List RvecTvec) (detected_feature_frames : List (Option FrameFeature)) :
    Except String (List ℚ) :=
  match (detected_feature_frames.filterMap id).enum.mapM (fun p : ℕ × FrameFeature =>
      match rtvec_list.get? p.1 with
      | some rt => Except.ok (p.2.features.map (fun kv : ℕ × FeaturePoint => reproj_err rt kv.2))
      | none => (Except.error "index out of bounds" : Except String (List ℚ))) with
  | .error e => .error e
  | .ok ls => .ok ls.flatten

/-- Homography matrix value passed between the external homography routines;
its contents are never inspected by the code under verification. -/
abbrev HMat := List (List ℚ)

/-- Per-frame body of the residual/pose loop of pub fn calib_camera (util.rs
lines 350-391): for each present frame add one reprojection residual per
feature, unproject the frame 2D points through the current model, keep the
pairs whose unprojection succeeded, record the frame index as valid, run the
absolute-pose solver (its unwrap panic is the error case) and seed the pose
variables. -/
def calib_frame_fold (pnp : Pnp) (generic_camera : GenericModel)
    (xy_same_focal : Bool) (params_len : ℕ) :
    List (Option FrameFeature) → ℕ → Problem → Values → List ℕ →
    Except String (Problem × Values × List ℕ)
  | [], _, problem, values, valid_indexes => .ok (problem, values, valid_indexes)
  | none :: rest, i, problem, values, valid_indexes =>
    calib_frame_fold pnp generic_camera xy_same_focal params_len rest (i + 1)
      problem values valid_indexes
  | some ff :: rest, i, problem, values, valid_indexes =>
    let rvec_name := "rvec" ++ toString i
    let tvec_name := "tvec" ++ toString i
    let problem := ff.features.foldl (fun pr fp =>
      pr.add_residual_block 2 [("params", params_len), (rvec_name, 3), (tvec_name, 3)]
        (CostTag.reprojection_factor generic_camera.params fp.2.p3d fp.2.p2d xy_same_focal)
        (some (LossTag.huber 1))) problem
    let p3ds := ff.features.map (fun fp => fp.2.p3d)
    let p2ds := ff.features.map (fun fp => fp.2.p2d)
    let undistorted := p2ds.map generic_camera.unproject_one
    let filtered := (undistorted.zip p3ds).filterMap
      (fun pe => pe.1.map (fun p2 => (pe.2, p2)))
    let p3ds_f := filtered.map (fun q => q.1)
    let p2ds_z := filtered.map (fun q => q.2)
    let valid_indexes := valid_indexes ++ [i]
    match pnp p3ds_f p2ds_z with
    | none => .error unwrap_msg
    | some rt =>
      let rt2 := rtvec_to_na_dvec rt
      let values := (values.or_insert rvec_name rt2.1).or_insert tvec_name rt2.2
      calib_frame_fold pnp generic_camera xy_same_focal params_len rest (i + 1)
        problem values valid_indexes

/-- Problem-building phase of pub fn calib_camera (util.rs lines 339-391):
drop the second focal slot from the initial parameter vector when
xy_same_focal, then run the per-frame loop. -/
def calib_build (pnp : Pnp) (frame_feature_list : List (Option FrameFeature))
    (generic_camera : GenericModel) (xy_same_focal : Bool) :
    Except String (Problem × Values × List ℕ) :=
  let params := if xy_same_focal then generic_camera.params.eraseIdx 1
                else generic_camera.params
  calib_frame_fold pnp generic_camera xy_same_focal params.length
    frame_feature_list 0 Problem.new [("params", params)] []

/-- Bound and disable phase of pub fn calib_camera (util.rs lines 396-403). -/
def calib_stage2 (generic_camera : GenericModel) (xy_same_focal : Bool)
    (disabled_distortions : ℕ) (pvl : Problem × Values × List ℕ) :
    Problem × Values × List ℕ :=
  let problem := set_problem_parameter_bound pvl.1 generic_camera xy_same_focal
  let pv := set_problem_parameter_disabled problem pvl.2.1 generic_camera
    xy_same_focal disabled_distortions
  (pv.1, pv.2, pvl.2.2)

/-- Pose collection of pub fn calib_camera (util.rs lines 420-431): remove
the rvec/tvec entries of each valid frame index from the result map; a
missing entry is the modelled unwrap panic. -/
def collect_rtvecs : List ℕ → Values → Except String (List RvecTvec × Values)
  | [], values => .ok ([], values)
  | i :: rest, values =>
    let rv := values.remove_get ("rvec" ++ toString i)
    match rv.1 with
    | none => .error unwrap_msg
    | some r =>
      let tv := rv.2.remove_get ("tvec" ++ toString i)
      match tv.1 with
      | none => .error unwrap_msg
      | some t =>
        match collect_rtvecs rest tv.2 with
        | .error e => .error e
        | .ok lt => .ok (⟨r, t⟩ :: lt.1, lt.2)

/-- Optional fixed-focal second pass of pub fn calib_camera (util.rs lines
405-410): fix params[0], overwrite it with the input model focal (the
get_mut unwrap panic is the first error case) and solve again (the second
unwrap panic is the other error case). -/
def calib_second_pass (solver : Solver) (generic_camera : GenericModel)
    (fixed_focal : Bool) (problem : Problem) (first_result : Values) :
    Except String Values :=
  if fixed_focal then
    match first_result.get "params" with
    | none => .error unwrap_msg
    | some _ =>
      let problem2 := problem.fix_variable "params" 0
      let result2 := first_result.set_idx "params" 0 (generic_camera.params.getD 0 0)
      match solver problem2 result2 with
      | none => .error unwrap_msg
      | some r2 => .ok r2
  else .ok first_result

/-- Focal row reinsertion of pub fn calib_camera (util.rs lines 412-416):
when xy_same_focal, reinsert the removed second focal as a copy of the
first; the error models the new_params[0] indexing panic on an empty
vector. -/
def calib_reinsert (xy_same_focal : Bool) (new_params0 : List ℚ) :
    Except String (List ℚ) :=
  if xy_same_focal then
    match new_params0 with
    | [] => .error "index out of bounds"
    | x :: xs => .ok (x :: x :: xs)
  else .ok new_params0

/-- Solve and post-processing phase of pub fn calib_camera (util.rs lines
404-432): first solve (unwrap panic when the solver returns none), optional
fixed-focal second pass, reinsertion of the copied focal row when
xy_same_focal, set_params, and pose collection. -/
def calib_solve (solver : Solver) (generic_camera : GenericModel)
    (xy_same_focal : Bool) (fixed_focal : Bool) (pvl : Problem × Values × List ℕ) :
    Except String (GenericModel × List RvecTvec) :=
  match solver pvl.1 pvl.2.1 with
  | none => .error unwrap_msg
  | some first_result =>
    match calib_second_pass solver generic_camera fixed_focal pvl.1 first_result with
    | .error e => .error e
    | .ok result =>
      match result.get "params" with
      | none => .error unwrap_msg
      | some new_params0 =>
        match calib_reinsert xy_same_focal new_params0 with
        | .error e => .error e
        | .ok new_params =>
          let calibrated_camera := generic_camera.set_params new_params
          match collect_rtvecs pvl.2.2 result with
          | .error e => .error e
          | .ok rl => .ok (calibrated_camera, rl.1)

/-- Embeds pub fn calib_camera (util.rs lines 332-433), composed from its
three phases in source order. -/
def calib_camera (solver : Solver) (pnp : Pnp)
    (frame_feature_list : List (Option FrameFeature))
    (generic_camera : GenericModel) (xy_same_focal : Bool)
    (disabled_distortions : ℕ) (fixed_focal : Bool) :
    Except String (GenericModel × List RvecTvec) :=
  match calib_build pnp frame_feature_list generic_camera xy_same_focal with
  | .error e => .error e
  | .ok pvl =>
    calib_solve solver generic_camera xy_same_focal fixed_focal
      (calib_stage2 generic_camera xy_same_focal disabled_distortions pvl)

/-- Embeds pub fn init_ucm (util.rs lines 228-330).  The UCM family
constructor is the collaborator mk_ucm (parameter vector, image width and
height to a capability value).  The solver returning none is returned as
ok none (no result, line 327-329); the bound 1e-6 of the alpha variable is
the f64 literal, modelled by the nearest decimal it denotes. -/
def init_ucm (solver : Solver) (pnp : Pnp)
    (mk_ucm : List ℚ → ℕ → ℕ → GenericModel)
    (frame_feature0 frame_feature1 : FrameFeature)
    (rtvec0 rtvec1 : RvecTvec) (init_f init_alpha : ℚ) (fixed_focal : Bool) :
    Except String (Option GenericModel) :=
  let half_w : ℚ := (frame_feature0.img_w_h.1 : ℚ) / 2
  let half_h : ℚ := (frame_feature0.img_w_h.2 : ℚ) / 2
  let init_params := [init_f, init_f, half_w, half_h, init_alpha]
  let ucm_init_model := mk_ucm init_params frame_feature0.img_w_h.1 frame_feature0.img_w_h.2
  let problem0 := frame_feature0.features.foldl (fun pr fp =>
    pr.add_residual_block 2 [("params", 2), ("rvec0", 3), ("tvec0", 3)]
      (CostTag.ucm_init_focal_alpha_factor ucm_init_model.params fp.2.p3d fp.2.p2d)
      (some (LossTag.huber 1))) Problem.new
  let problem0 := frame_feature1.features.foldl (fun pr fp =>
    pr.add_residual_block 2 [("params", 2), ("rvec1", 3), ("tvec1", 3)]
      (CostTag.ucm_init_focal_alpha_factor ucm_init_model.params fp.2.p3d fp.2.p2d)
      (some (LossTag.huber 1))) problem0
  let initial_values : Values :=
    [("params", [init_f, init_alpha]), ("rvec0", rtvec0.rvec), ("tvec0", rtvec0.tvec),
     ("rvec1", rtvec1.rvec), ("tvec1", rtvec1.tvec)]
  let problem0 := if fixed_focal then problem0.fix_variable "params" 0 else problem0
  let problem0 := problem0.set_variable_bounds "params" 0 (init_f / 3) (init_f * 3)
  let problem0 := problem0.set_variable_bounds "params" 1 (1 / 1000000) 1
  match solver problem0 initial_values with
  | none => .ok none
  | some second_round_values =>
    match second_round_values.get "params" with
    | none => .error unwrap_msg
    | some ps =>
      match ps with
      | focal :: alpha :: _ =>
        let ucm_all_params := [focal, focal, half_w, half_h, alpha]
        let ucm_camera := mk_ucm ucm_all_params frame_feature0.img_w_h.1
          frame_feature0.img_w_h.2
        match calib_camera solver pnp [some frame_feature0, some frame_feature1]
            ucm_camera true 0 fixed_focal with
        | .error e => .error e
        | .ok mp => .ok (some mp.1)
      | _ => .error "index out of bounds"

/-- Embeds pub fn try_init_camera (util.rs lines 86-138).  The homography
collaborators radial_distortion_homography, homography_to_focal and init_pose
come from the optimization module and are parameters here; the focal not
being extractable is returned as ok none (line 96-99), and so is the final
params[0] == 0.0 rejection (lines 129-134). -/
def try_init_camera (solver : Solver) (pnp : Pnp)
    (mk_ucm : List ℚ → ℕ → ℕ → GenericModel)
    (radial_distortion_homography : FrameFeature → FrameFeature → ℚ × HMat)
    (homography_to_focal : HMat → Option ℚ)
    (init_pose : FrameFeature → ℚ → (ℚ × ℚ × ℚ) × (ℚ × ℚ × ℚ))
    (frame_feature0 frame_feature1 : FrameFeature) (fixed_focal : Option ℚ) :
    Except String (Option GenericModel) :=
  let lh := radial_distortion_homography frame_feature0 frame_feature1
  match homography_to_focal lh.2 with
  | none => .ok none
  | some unit_plane_focal =>
    let rt0 := rtvec_to_na_dvec (init_pose frame_feature0 lh.1)
    let rt1 := rtvec_to_na_dvec (init_pose frame_feature1 lh.1)
    let rtvec0 : RvecTvec := ⟨rt0.1, rt0.2⟩
    let rtvec1 : RvecTvec := ⟨rt1.1, rt1.2⟩
    let half_w : ℚ := (frame_feature0.img_w_h.1 : ℚ) / 2
    let half_h : ℚ := (frame_feature0.img_w_h.2 : ℚ) / 2
    let half_img_size := max half_h half_w
    let init_f := match fixed_focal with
      | some focal => focal
      | none => unit_plane_focal * half_img_size
    let init_alpha := |lh.1|
    match init_ucm solver pnp mk_ucm frame_feature0 frame_feature1 rtvec0 rtvec1
        init_f init_alpha fixed_focal.isSome with
    | .error e => .error e
    | .ok none => .ok none
    | .ok (some initial_camera) =>
      if initial_camera.params.getD 0 0 = 0 then .ok none
      else .ok (some initial_camera)

/-- Edge margin of pub fn convert_model (util.rs line 191): the larger image
dimension cast to u32 (truncation of a nonnegative f64) divided by 100 as
integers. -/
def convert_edge_pixels (source_model : GenericModel) : ℕ :=
  (max source_model.width source_model.height).floor.toNat / 100

/-- Grid step count of pub fn convert_model (util.rs line 192): the larger
image dimension over 30, truncated to usize. -/
def convert_steps (source_model : GenericModel) : ℕ :=
  ((max source_model.width source_model.height) / 30).floor.toNat

/-- Problem-building phase of pub fn convert_model (util.rs lines 190-219):
one model-conversion residual block (its residual count is the external
factor capability residual_num), initial target parameters with the leading
four entries copied from the source camera parameters (rows_mut(0,4)
.copy_from, faithful when camera_params has length 4, its capability
contract), then the shared bound/disable mechanism with xy_same_focal
false. -/
def convert_problem (residual_num : GenericModel → GenericModel → ℕ → ℕ → ℕ)
    (source_model target_model : GenericModel) (disabled_distortions : ℕ) :
    Problem × Values :=
  let edge_pixels := convert_edge_pixels source_model
  let steps := convert_steps source_model
  let problem := Problem.new.add_residual_block
    (residual_num source_model target_model edge_pixels steps)
    [("params", target_model.params.length)]
    (CostTag.model_convert_factor source_model.params target_model.params edge_pixels steps)
    (some (LossTag.huber 1))
  let camera_params := source_model.camera_params
  let target_params_init := camera_params ++ target_model.params.drop 4
  let initial_values : Values := [("params", target_params_init)]
  let problem := set_problem_parameter_bound problem target_model false
  set_problem_parameter_disabled problem initial_values target_model false
    disabled_distortions

/-- Embeds pub fn convert_model (util.rs lines 185-226): build the problem,
solve (unwrap panic when the solver returns none) and replace the target
model parameters in place with the converged result. -/
def convert_model (solver : Solver)
    (residual_num : GenericModel → GenericModel → ℕ → ℕ → ℕ)
    (source_model target_model : GenericModel) (disabled_distortions : ℕ) :
    Except String GenericModel :=
  let pv := convert_problem residual_num source_model target_model disabled_distortions
  match solver pv.1 pv.2 with
  | none => .error unwrap_msg
  | some result =>
    match result.get "params" with
    | none => .error unwrap_msg
    | some result_params => .ok (target_model.set_params result_params)

/-- Contract of the external solver assumed by the parameter-pinning claims
(spec section 6: the solver consumes per-scalar fixing): a converged result
contains every input block with unchanged length, and scalars fixed in the
problem keep their initial values. -/
def SolverRespectsFixed (solver : Solver) : Prop :=
  ∀ p v r, solver p v = some r →
    ∀ name vec, Values.get v name = some vec →
      ∃ vec2, Values.get r name = some vec2 ∧ vec2.length = vec.length ∧
        ∀ i, (name, i) ∈ p.fixed_vars → vec2[i]? = vec[i]?

/-- Test solver that returns the initial values unchanged. -/
def id_solver : Solver := fun _ v => some v

/-- Test solver that never converges. -/
def none_solver : Solver := fun _ _ => none

/-- Test absolute-pose collaborator that always returns the zero pose. -/
def const_pnp : Pnp := fun _ _ => some ((0, 0, 0), (0, 0, 0))

/-- Test residual-count capability for the model-conversion factor. -/
def rn_zero : GenericModel → GenericModel → ℕ → ℕ → ℕ := fun _ _ _ _ => 0

/-- Test UCM constructor capability: stores the parameter vector and image
size, no distortion bounds, unprojection always fails. -/
def mk_ucm_fix : List ℚ → ℕ → ℕ → GenericModel :=
  fun ps w h => ⟨ps, (w : ℚ), (h : ℚ), [], fun _ => none, []⟩

/-- Test camera with six parameters whose unprojection always fails. -/
def cam_six : GenericModel :=
  ⟨[100, 100, 50, 50, 7, 9], 640, 480, [], fun _ => none, []⟩

/-- Test camera with five parameters. -/
def cam_five : GenericModel :=
  ⟨[100, 100, 50, 50, 1/2], 640, 480, [], fun _ => none, []⟩

/-- Test feature point. -/
def fp_a : FeaturePoint := ⟨(10, 20), (0, 0, 1)⟩

/-- Test frame with a single feature point. -/
def frame_one : FrameFeature := ⟨[(0, fp_a)], (640, 480), 0⟩

/-- Frame whose points span a wide bounding box: pixels (0,0), (5,5), (1,1). -/
def frame_wide : FrameFeature :=
  ⟨[(0, ⟨(0, 0), (0, 0, 0)⟩), (1, ⟨(5, 5), (0, 0, 0)⟩), (2, ⟨(1, 1), (0, 0, 0)⟩)],
   (640, 480), 0⟩

/-- Frame whose points span a narrow bounding box: pixels (0,0), (1,1), (2,2). -/
def frame_close : FrameFeature :=
  ⟨[(0, ⟨(0, 0), (0, 0, 0)⟩), (1, ⟨(1, 1), (0, 0, 0)⟩), (2, ⟨(2, 2), (0, 0, 0)⟩)],
   (640, 480), 0⟩

/-- Two-frame input to the frame-pair selector. -/
def frames_ab : List (Option FrameFeature) := [some frame_wide, some frame_close]

/-- Test frame with no features over a 2x2 image. -/
def frame_empty_small : FrameFeature := ⟨[], (2, 2), 0⟩

/-- Test frame with no features over an 8x4 image. -/
def frame_empty_wide : FrameFeature := ⟨[], (8, 4), 0⟩

/-- Test homography collaborator returning lambda 0 and an empty matrix. -/
def rdh_zero : FrameFeature → FrameFeature → ℚ × HMat := fun _ _ => (0, [])

/-- Test homography collaborator returning lambda -2. -/
def rdh_two : FrameFeature → FrameFeature → ℚ × HMat := fun _ _ => (-2, [])

/-- Test focal extraction returning unit-plane focal 0. -/
def htf_zero : HMat → Option ℚ := fun _ => some 0

/-- Test focal extraction returning unit-plane focal 3. -/
def htf_three : HMat → Option ℚ := fun _ => some 3

/-- Test initial-pose collaborator returning the zero pose. -/
def ip_zero : FrameFeature → ℚ → (ℚ × ℚ × ℚ) × (ℚ × ℚ × ℚ) :=
  fun _ _ => ((0, 0, 0), (0, 0, 0))

/-- Test initial-pose collaborator returning a fixed nonzero pose. -/
def ip_lin : FrameFeature → ℚ → (ℚ × ℚ × ℚ) × (ℚ × ℚ × ℚ) :=
  fun _ _ => ((1, 2, 3), (4, 5, 6))

/-- Test error collection of the validator property. -/
def errs_ten : List ℚ := [1, 2, 3, 4, 5, 6, 7, 8, 9, 10]

/-- Test source model for conversion with camera parameters of length 4. -/
def src_conv : GenericModel :=
  ⟨[1, 2, 3, 4, 5], 640, 480, [], fun _ => none, [10, 20, 30, 40]⟩

/-- Test target model for conversion with six parameters. -/
def tgt_conv : GenericModel :=
  ⟨[9, 9, 9, 9, 9, 9], 640, 480, [], fun _ => none, []⟩

theorem svb_fixed_vars (p : Problem) (n : String) (i : ℕ) (lo hi : ℚ) :
    (Problem.set_variable_bounds p n i lo hi).fixed_vars = p.fixed_vars := rfl

theorem svb_residual_blocks (p : Problem) (n : String) (i : ℕ) (lo hi : ℚ) :
    (Problem.set_variable_bounds p n i lo hi).residual_blocks = p.residual_blocks := rfl

theorem fixv_fixed_vars (p : Problem) (n : String) (i : ℕ) :
    (Problem.fix_variable p n i).fixed_vars = p.fixed_vars ++ [(n, i)] := rfl

theorem fixv_residual_blocks (p : Problem) (n : String) (i : ℕ) :
    (Problem.fix_variable p n i).residual_blocks = p.residual_blocks := rfl

theorem foldl_svb_fixed_vars (l : List (ℕ × ℚ × ℚ)) (s : ℕ) : ∀ q : Problem,
    (l.foldl (fun acc b => acc.set_variable_bounds "params" (b.1 - s) b.2.1 b.2.2)
      q).fixed_vars = q.fixed_vars := by
  induction l with
  | nil => intro q; rfl
  | cons b rest ih => intro q; rw [List.foldl_cons, ih, svb_fixed_vars]

theorem foldl_svb_residual_blocks (l : List (ℕ × ℚ × ℚ)) (s : ℕ) : ∀ q : Problem,
    (l.foldl (fun acc b => acc.set_variable_bounds "params" (b.1 - s) b.2.1 b.2.2)
      q).residual_blocks = q.residual_blocks := by
  induction l with
  | nil => intro q; rfl
  | cons b rest ih => intro q; rw [List.foldl_cons, ih, svb_residual_blocks]

theorem spb_fixed_vars (p : Problem) (c : GenericModel) (sf : Bool) :
    (set_problem_parameter_bound p c sf).fixed_vars = p.fixed_vars := by
  unfold set_problem_parameter_bound
  rw [foldl_svb_fixed_vars]
  rfl

theorem spb_residual_blocks (p : Problem) (c : GenericModel) (sf : Bool) :
    (set_problem_parameter_bound p c sf).residual_blocks = p.residual_blocks := by
  unfold set_problem_parameter_bound
  rw [foldl_svb_residual_blocks]
  rfl

theorem values_get_append_of_some (vs : Values) (key : String) (v : List ℚ)
    (ws : Values) (h : Values.get vs key = some v) :
    Values.get (vs ++ ws) key = some v := by
  induction vs with
  | nil => simp [Values.get] at h
  | cons a rest ih =>
    obtain ⟨k, w⟩ := a
    rw [List.cons_append]
    simp only [Values.get] at h ⊢
    split at h
    · rename_i hk
      rw [if_pos hk]
      exact h
    · rename_i hk
      rw [if_neg hk]
      exact ih h

theorem values_get_or_insert_of_some (vs : Values) (key k2 : String) (v w : List ℚ)
    (h : Values.get vs key = some v) :
    Values.get (Values.or_insert vs k2 w) key = some v := by
  unfold Values.or_insert
  cases hg : Values.get vs k2 with
  | some _ => exact h
  | none => exact values_get_append_of_some vs key v _ h

theorem values_get_set_idx (vs : Values) (key : String) (i : ℕ) (x : ℚ) :
    Values.get (Values.set_idx vs key i x) key
      = (Values.get vs key).map (fun l => l.set i x) := by
  induction vs with
  | nil => simp [Values.set_idx, Values.get]
  | cons a rest ih =>
    obtain ⟨k, w⟩ := a
    by_cases hk : k = key
    · simp [Values.set_idx, Values.get, hk]
    · simp [Values.set_idx, Values.get, hk, ih]

theorem disabled_succ (pr : Problem) (vs : Values) (cam : GenericModel)
    (sf : Bool) (k : ℕ) :
    set_problem_parameter_disabled pr vs cam sf (k + 1) =
      ((set_problem_parameter_disabled pr vs cam sf k).1.fix_variable "params"
         (cam.params.length - 1 - (if sf then 1 else 0) - k),
       Values.set_idx (set_problem_parameter_disabled pr vs cam sf k).2 "params"
         (cam.params.length - 1 - (if sf then 1 else 0) - k) 0) := by
  unfold set_problem_parameter_disabled
  rw [List.range_succ, List.foldl_append]
  rfl

theorem disabled_get_params (pr : Problem) (vs : Values) (cam : GenericModel)
    (sf : Bool) (k : ℕ) (q : List ℚ) (hq : Values.get vs "params" = some q) :
    ∃ q2 : List ℚ,
      Values.get (set_problem_parameter_disabled pr vs cam sf k).2 "params" = some q2 ∧
      q2.length = q.length ∧
      (∀ j, (∀ i, i < k → j ≠ cam.params.length - 1 - (if sf then 1 else 0) - i) →
        q2[j]? = q[j]?) ∧
      (∀ i, i < k → cam.params.length - 1 - (if sf then 1 else 0) - i < q.length →
        q2[cam.params.length - 1 - (if sf then 1 else 0) - i]? = some 0) := by
  induction k with
  | zero =>
    refine ⟨q, ?_, rfl, fun j _ => rfl, fun i hi => absurd hi (by omega)⟩
    simpa [set_problem_parameter_disabled] using hq
  | succ k ih =>
    obtain ⟨q2, hget, hlen, hoth, hzero⟩ := ih
    refine ⟨q2.set (cam.params.length - 1 - (if sf then 1 else 0) - k) 0, ?_, ?_, ?_, ?_⟩
    · rw [disabled_succ, values_get_set_idx, hget]
      rfl
    · simp [hlen]
    · intro j hj
      rw [List.getElem?_set_ne (by exact fun hne => (hj k (by omega)) hne.symm |>.elim)]
      exact hoth j (fun i hi => hj i (by omega))
    · intro i hi hlt
      by_cases hik : cam.params.length - 1 - (if sf then 1 else 0) - i
          = cam.params.length - 1 - (if sf then 1 else 0) - k
      · rw [hik, List.getElem?_set_self (by omega)]
      · rw [List.getElem?_set_ne (fun hne => hik hne.symm)]
        exact hzero i (by omega) hlt

theorem disabled_fixed_mem (pr : Problem) (vs : Values) (cam : GenericModel)
    (sf : Bool) (k : ℕ) :
    (∀ x, x ∈ pr.fixed_vars →
      x ∈ (set_problem_parameter_disabled pr vs cam sf k).1.fixed_vars) ∧
    (∀ i, i < k → ("params", cam.params.length - 1 - (if sf then 1 else 0) - i)
      ∈ (set_problem_parameter_disabled pr vs cam sf k).1.fixed_vars) := by
  induction k with
  | zero =>
    refine ⟨fun x hx => ?_, fun i hi => absurd hi (by omega)⟩
    simpa [set_problem_parameter_disabled] using hx
  | succ k ih =>
    obtain ⟨ihold, ihnew⟩ := ih
    constructor
    · intro x hx
      rw [disabled_succ, fixv_fixed_vars]
      exact List.mem_append_left _ (ihold x hx)
    · intro i hi
      rw [disabled_succ, fixv_fixed_vars]
      rcases Nat.lt_succ_iff_lt_or_eq.mp hi with hlt | heq
      · exact List.mem_append_left _ (ihnew i hlt)
      · subst heq
        simp

theorem disabled_residual_blocks (pr : Problem) (vs : Values) (cam : GenericModel)
    (sf : Bool) (k : ℕ) :
    (set_problem_parameter_disabled pr vs cam sf k).1.residual_blocks
      = pr.residual_blocks := by
  induction k with
  | zero => simp [set_problem_parameter_disabled]
  | succ k ih => rw [disabled_succ, fixv_residual_blocks, ih]

theorem cff_values_preserved (pnp : Pnp) (cam : GenericModel) (sf : Bool) (pl : ℕ)
    (l : List (Option FrameFeature)) :
    ∀ (i : ℕ) (pr : Problem) (vs : Values) (vi : List ℕ)
      (out : Problem × Values × List ℕ) (key : String) (v : List ℚ),
      calib_frame_fold pnp cam sf pl l i pr vs vi = .ok out →
      Values.get vs key = some v → Values.get out.2.1 key = some v := by
  induction l with
  | nil =>
    intro i pr vs vi out key v h hv
    unfold calib_frame_fold at h
    cases h
    exact hv
  | cons head rest ih =>
    intro i pr vs vi out key v h hv
    cases head with
    | none =>
      exact ih (i + 1) pr vs vi out key v (by simpa [calib_frame_fold] using h) hv
    | some ff =>
      simp only [calib_frame_fold] at h
      split at h
      · cases h
      · rename_i rt hpnp
        refine ih (i + 1) _ _ _ out key v h ?_
        exact values_get_or_insert_of_some _ key _ _ _
          (values_get_or_insert_of_some _ key _ _ _ hv)

theorem cff_valid_len (pnp : Pnp) (cam : GenericModel) (sf : Bool) (pl : ℕ)
    (l : List (Option FrameFeature)) :
    ∀ (i : ℕ) (pr : Problem) (vs : Values) (vi : List ℕ)
      (out : Problem × Values × List ℕ),
      calib_frame_fold pnp cam sf pl l i pr vs vi = .ok out →
      out.2.2.length = vi.length + (l.filterMap id).length := by
  induction l with
  | nil =>
    intro i pr vs vi out h
    unfold calib_frame_fold at h
    cases h
    simp
  | cons head rest ih =>
    intro i pr vs vi out h
    cases head with
    | none =>
      have := ih (i + 1) pr vs vi out (by simpa [calib_frame_fold] using h)
      simpa using this
    | some ff =>
      simp only [calib_frame_fold] at h
      split at h
      · cases h
      · rename_i rt hpnp
        have := ih (i + 1) _ _ _ out h
        simp only [List.length_append, List.length_cons, List.filterMap_cons] at this ⊢
        simp [this]
        omega

theorem collect_rtvecs_len (li : List ℕ) :
    ∀ (vs : Values) (out : List RvecTvec × Values),
      collect_rtvecs li vs = .ok out → out.1.length = li.length := by
  induction li with
  | nil =>
    intro vs out h
    unfold collect_rtvecs at h
    cases h
    simp
  | cons i rest ih =>
    intro vs out h
    simp only [collect_rtvecs] at h
    split at h
    · cases h
    · split at h
      · cases h
      · split at h
        · cases h
        · rename_i lt hrec
          cases h
          simpa using ih _ _ hrec

theorem calib_build_ok_values (pnp : Pnp) (frames : List (Option FrameFeature))
    (cam : GenericModel) (sf : Bool) (pvl : Problem × Values × List ℕ)
    (h : calib_build pnp frames cam sf = .ok pvl) :
    Values.get pvl.2.1 "params"
      = some (if sf then cam.params.eraseIdx 1 else cam.params) ∧
    pvl.2.2.length = (frames.filterMap id).length := by
  unfold calib_build at h
  constructor
  · exact cff_values_preserved _ _ _ _ frames 0 _ _ _ pvl "params" _ h (by simp [Values.get])
  · simpa using cff_valid_len _ _ _ _ frames 0 _ _ _ pvl h

theorem calib_stage2_valid (cam : GenericModel) (sf : Bool) (k : ℕ)
    (pvl : Problem × Values × List ℕ) :
    (calib_stage2 cam sf k pvl).2.2 = pvl.2.2 := rfl

theorem calib_stage2_values (cam : GenericModel) (sf : Bool) (k : ℕ)
    (pvl : Problem × Values × List ℕ) :
    (calib_stage2 cam sf k pvl).2.1
      = (set_problem_parameter_disabled (set_problem_parameter_bound pvl.1 cam sf)
          pvl.2.1 cam sf k).2 := rfl

theorem calib_stage2_problem (cam : GenericModel) (sf : Bool) (k : ℕ)
    (pvl : Problem × Values × List ℕ) :
    (calib_stage2 cam sf k pvl).1
      = (set_problem_parameter_disabled (set_problem_parameter_bound pvl.1 cam sf)
          pvl.2.1 cam sf k).1 := rfl


theorem calib_second_pass_ok_inv (solver : Solver) (cam : GenericModel)
    (ff : Bool) (pb : Problem) (fr result : Values)
    (h : calib_second_pass solver cam ff pb fr = .ok result) :
    (ff = false ∧ result = fr) ∨
    (ff = true ∧ ∃ w, Values.get fr "params" = some w ∧
       solver (pb.fix_variable "params" 0)
         (fr.set_idx "params" 0 (cam.params.getD 0 0)) = some result) := by
  cases ff with
  | false =>
    left
    refine ⟨rfl, ?_⟩
    simp only [calib_second_pass, Bool.false_eq_true, if_false] at h
    exact (Except.ok.injEq _ _ ▸ h).symm
  | true =>
    right
    refine ⟨rfl, ?_⟩
    simp only [calib_second_pass, if_true] at h
    split at h
    · cases h
    · rename_i w hw
      split at h
      · cases h
      · rename_i r2 hr2
        cases h
        exact ⟨w, hw, hr2⟩

theorem calib_reinsert_ok_inv (sf : Bool) (np0 np : List ℚ)
    (h : calib_reinsert sf np0 = .ok np) :
    (sf = false ∧ np = np0) ∨
    (sf = true ∧ ∃ x xs, np0 = x :: xs ∧ np = x :: x :: xs) := by
  cases sf with
  | false =>
    left
    refine ⟨rfl, ?_⟩
    simp only [calib_reinsert, Bool.false_eq_true, if_false] at h
    exact (Except.ok.injEq _ _ ▸ h).symm
  | true =>
    right
    refine ⟨rfl, ?_⟩
    simp only [calib_reinsert, if_true] at h
    split at h
    · cases h
    · rename_i x xs
      cases h
      exact ⟨x, xs, rfl, rfl⟩

theorem calib_solve_ok_inv (solver : Solver) (cam : GenericModel) (sf ff : Bool)
    (pvl : Problem × Values × List ℕ) (m : GenericModel) (poses : List RvecTvec)
    (h : calib_solve solver cam sf ff pvl = .ok (m, poses)) :
    ∃ first_result, solver pvl.1 pvl.2.1 = some first_result ∧
    ∃ result : Values,
      calib_second_pass solver cam ff pvl.1 first_result = .ok result ∧
    ∃ new_params0, Values.get result "params" = some new_params0 ∧
    ∃ new_params, calib_reinsert sf new_params0 = .ok new_params ∧
      m = cam.set_params new_params ∧
    ∃ rl, collect_rtvecs pvl.2.2 result = .ok rl ∧ poses = rl.1 := by
  unfold calib_solve at h
  split at h
  · cases h
  · rename_i first_result hsol
    refine ⟨first_result, hsol, ?_⟩
    split at h
    · cases h
    · rename_i result hstep
      refine ⟨result, hstep, ?_⟩
      split at h
      · cases h
      · rename_i new_params0 hget
        refine ⟨new_params0, hget, ?_⟩
        split at h
        · cases h
        · rename_i new_params hins
          refine ⟨new_params, hins, ?_⟩
          split at h
          · cases h
          · rename_i rl hcoll
            cases h
            exact ⟨rfl, rl, hcoll, rfl⟩

/-- C1 (amended): when the underlying solver reports no solution on the
first solve of calib_camera or on the solve of convert_model, the stage does
not return a recoverable no-result; it panics (unwrap on None), modelled as
the unwrap error.  The calib_camera part assumes the per-frame build phase
completed (otherwise the pose unwrap panics first). -/
theorem calib_convert_panic_on_solver_none :
    (∀ (solver : Solver) (pnp : Pnp) (frames : List (Option FrameFeature))
       (cam : GenericModel) (sf : Bool) (k : ℕ) (ff : Bool)
       (pvl : Problem × Values × List ℕ),
       calib_build pnp frames cam sf = .ok pvl →
       solver (calib_stage2 cam sf k pvl).1 (calib_stage2 cam sf k pvl).2.1 = none →
       calib_camera solver pnp frames cam sf k ff = .error unwrap_msg) ∧
    (∀ (solver : Solver) (rn : GenericModel → GenericModel → ℕ → ℕ → ℕ)
       (src tgt : GenericModel) (k : ℕ),
       solver (convert_problem rn src tgt k).1 (convert_problem rn src tgt k).2 = none →
       convert_model solver rn src tgt k = .error unwrap_msg) := by
  constructor
  · intro solver pnp frames cam sf k ff pvl hb hs
    unfold calib_camera
    rw [hb]
    show calib_solve solver cam sf ff (calib_stage2 cam sf k pvl) = Except.error unwrap_msg
    unfold calib_solve
    rw [hs]
  · intro solver rn src tgt k hs
    have hcm : convert_model solver rn src tgt k =
        match solver (convert_problem rn src tgt k).1 (convert_problem rn src tgt k).2 with
        | none => Except.error unwrap_msg
        | some result =>
          match result.get "params" with
          | none => Except.error unwrap_msg
          | some result_params => Except.ok (tgt.set_params result_params) := rfl
    rw [hcm, hs]

/-- C1 counterexample: a concrete input on which the solver reports no
solution and calib_camera (resp. convert_model) does not return a
recoverable no-result but evaluates to the modelled unwrap panic. -/
theorem calib_convert_no_result_counterexample :
    calib_camera none_solver const_pnp [] cam_six false 0 false = .error unwrap_msg ∧
    convert_model none_solver rn_zero src_conv tgt_conv 0 = .error unwrap_msg := by
  constructor
  · with_unfolding_all rfl
  · with_unfolding_all rfl

/-- C1 witness: the amended theorem applied at a concrete non-converging
solver and concrete models. -/
theorem calib_convert_panic_witness :
    calib_camera none_solver const_pnp [] cam_five false 0 false = .error unwrap_msg ∧
    convert_model none_solver rn_zero src_conv tgt_conv 1 = .error unwrap_msg :=
  ⟨calib_convert_panic_on_solver_none.1 none_solver const_pnp [] cam_five false 0 false
      (Problem.new, [("params", cam_five.params)], []) (by with_unfolding_all rfl) rfl,
   calib_convert_panic_on_solver_none.2 none_solver rn_zero src_conv tgt_conv 1 rfl⟩

/-- C2 (amended): no present frame is ever excluded: whenever calib_camera
returns, its pose list has exactly one entry per present input frame,
whatever the unprojection filtering left (the skip of low-point frames is
commented out in the source); a frame with zero usable points reaches the
absolute-pose solver with empty input and at best contributes a pose, at
worst panics the whole call. -/
theorem calib_no_frame_excluded (solver : Solver) (pnp : Pnp)
    (frames : List (Option FrameFeature)) (cam : GenericModel) (sf : Bool)
    (k : ℕ) (ff : Bool) (m : GenericModel) (poses : List RvecTvec)
    (h : calib_camera solver pnp frames cam sf k ff = .ok (m, poses)) :
    poses.length = (frames.filterMap id).length := by
  unfold calib_camera at h
  cases hb : calib_build pnp frames cam sf with
  | error e => rw [hb] at h; cases h
  | ok pvl =>
    rw [hb] at h
    replace h : calib_solve solver cam sf ff (calib_stage2 cam sf k pvl) = .ok (m, poses) := h
    obtain ⟨fr, hsol, result, hstep, np0, hget, np, hins, hm, rl, hcoll, hposes⟩ :=
      calib_solve_ok_inv _ _ _ _ _ _ _ h
    rw [calib_stage2_valid] at hcoll
    have h2 := collect_rtvecs_len _ _ _ hcoll
    have h1 := (calib_build_ok_values _ _ _ _ _ hb).2
    rw [hposes, h2, h1]

set_option maxRecDepth 8000 in
/-- C2 witness: the amended theorem applied at a concrete run in which the
single present frame has zero usable undistorted points (the camera
unprojection always fails) yet the returned pose list has one entry. -/
theorem calib_no_frame_excluded_witness :
    (GenericModel.set_params cam_six cam_six.params,
      ([⟨[0, 0, 0], [0, 0, 0]⟩] : List RvecTvec)).2.length
      = ([some frame_one].filterMap id).length :=
  calib_no_frame_excluded id_solver const_pnp [some frame_one] cam_six false 0 false
    (GenericModel.set_params cam_six cam_six.params) [⟨[0, 0, 0], [0, 0, 0]⟩]
    (by with_unfolding_all rfl)

/-- C2 counterexample: a present frame whose unprojection filtering leaves
zero usable points is not excluded from the returned pose list: the run
returns a pose list of length 1 for that frame instead of 0. -/
theorem calib_zero_point_frame_included_counterexample :
    ((frame_one.features.map (fun kv => cam_six.unproject_one kv.2.p2d)).filterMap id).length
      = 0 ∧
    (match calib_camera id_solver const_pnp [some frame_one] cam_six false 0 false with
     | .ok r => r.2.length
     | .error _ => 0) = 1 := by
  constructor
  · with_unfolding_all rfl
  · with_unfolding_all rfl

set_option maxRecDepth 20000 in
/-- C6 (code bug evaluation): on two candidate frames with equal detection
counts, find_best_two_frames picks frame 1 as its area-best first index even
though frame 0 covers the strictly larger axis-aligned bounding-box area (25
versus 4 pixels squared): the fold in features_covered_area updates its
running maximum from the running minimum (acc.0/acc.1 instead of
acc.2/acc.3), so the quantity it maximizes is not the bounding-box area the
spec describes. -/
theorem find_best_two_frames_area_bug :
    find_best_two_frames frames_ab = .ok (1, 1) ∧
    features_covered_area frame_wide.features = 1 ∧
    features_covered_area frame_close.features = 4 ∧
    features_bbox_area frame_wide.features = 25 ∧
    features_bbox_area frame_close.features = 4 := by
  refine ⟨?_, ?_, ?_, ?_, ?_⟩ <;> with_unfolding_all rfl

/-- C7: the frame-pair selection is deterministic: on a fixed detected-frame
sequence with at least one present frame, two calls of find_best_two_frames
return the same outcome.  The embedding fixes the iteration order of each
frame feature map, which is what one Rust call observes (iterating a cloned
HashMap yields one fixed order), and the function is pure. -/
theorem find_best_two_frames_deterministic (frames : List (Option FrameFeature))
    (h : ∃ i f, frames.get? i = some (some f)) :
    find_best_two_frames frames = find_best_two_frames frames := rfl

/-- C7 witness: determinism applied at a concrete one-frame sequence. -/
theorem find_best_two_frames_deterministic_witness :
    (∃ i f, [some frame_one].get? i = some (some f)) ∧
    find_best_two_frames [some frame_one] = find_best_two_frames [some frame_one] :=
  ⟨⟨0, frame_one, rfl⟩,
   find_best_two_frames_deterministic [some frame_one] ⟨0, frame_one, rfl⟩⟩

theorem list_sum_map_div (l : List ℚ) (c : ℚ) :
    (l.map (fun p => p / c)).sum = l.sum / c := by
  induction l with
  | nil => simp
  | cons x xs ih => simp [ih, add_div]

/-- C3: on every nonempty collection of per-point reprojection errors the
validator reports as median the element at index n/2 of the ascending-sorted
errors and as trimmed mean the arithmetic mean of the first n*99/100 sorted
errors; in particular on [1..10] it reports median 6 and trimmed mean 5. -/
theorem validation_stats_spec (errors : List ℚ) (hne : errors ≠ []) :
    ∃ s : List ℚ, s.Perm errors ∧ s.Sorted (· ≤ ·) ∧
      validation_median errors = s.getD (errors.length / 2) 0 ∧
      (0 < errors.length * 99 / 100 →
        validation_avg99 errors
          = (s.take (errors.length * 99 / 100)).sum
            / ((errors.length * 99 / 100 : ℕ) : ℚ)) ∧
      validation_median [1, 2, 3, 4, 5, 6, 7, 8, 9, 10] = 6 ∧
      validation_avg99 [1, 2, 3, 4, 5, 6, 7, 8, 9, 10] = 5 := by
  refine ⟨validation_sorted_errors errors, ?_, ?_, rfl, ?_, ?_, ?_⟩
  · exact List.mergeSort_perm errors _
  · have hp := @List.sorted_mergeSort ℚ (fun a b : ℚ => decide (a ≤ b))
      (fun a b c hab hbc => by
        simp only [decide_eq_true_eq] at hab hbc ⊢
        exact le_trans hab hbc)
      (fun a b => by
        simp only [Bool.or_eq_true, decide_eq_true_eq]
        exact le_total a b) errors
    exact hp.imp (fun hab => by simpa using hab)
  · intro hk
    simp only [validation_avg99]
    rw [list_sum_map_div]
  · with_unfolding_all rfl
  · with_unfolding_all rfl

/-- C3 witness: the statistics property applied at the concrete toy error
set [1..10]. -/
theorem validation_stats_spec_witness :
    ∃ s : List ℚ, s.Perm errs_ten ∧ s.Sorted (· ≤ ·) ∧
      validation_median errs_ten = s.getD (errs_ten.length / 2) 0 ∧
      (0 < errs_ten.length * 99 / 100 →
        validation_avg99 errs_ten
          = (s.take (errs_ten.length * 99 / 100)).sum
            / ((errs_ten.length * 99 / 100 : ℕ) : ℚ)) ∧
      validation_median [1, 2, 3, 4, 5, 6, 7, 8, 9, 10] = 6 ∧
      validation_avg99 [1, 2, 3, 4, 5, 6, 7, 8, 9, 10] = 5 :=
  validation_stats_spec errs_ten (by decide)

/-- C5: with xy_same_focal set, the camera model returned by calib_camera
has its two focal scalars (parameter indices 0 and 1) exactly equal; the
second focal row is removed from the optimization parameter block before
solving (the initial params block is the input parameter vector with row 1
erased) and the result is of the form x :: x :: rest. -/
theorem calib_xy_same_focal_equal (solver : Solver) (pnp : Pnp)
    (frames : List (Option FrameFeature)) (cam : GenericModel) (k : ℕ) (ff : Bool)
    (m : GenericModel) (poses : List RvecTvec)
    (hlen : 2 ≤ cam.params.length)
    (h : calib_camera solver pnp frames cam true k ff = .ok (m, poses)) :
    (∃ x xs, m.params = x :: x :: xs) ∧
    m.params.getD 0 0 = m.params.getD 1 0 ∧
    (∀ pvl, calib_build pnp frames cam true = .ok pvl →
      Values.get pvl.2.1 "params" = some (cam.params.eraseIdx 1)) := by
  unfold calib_camera at h
  cases hb : calib_build pnp frames cam true with
  | error e => rw [hb] at h; cases h
  | ok pvl =>
    rw [hb] at h
    replace h : calib_solve solver cam true ff (calib_stage2 cam true k pvl) = .ok (m, poses) := h
    obtain ⟨fr, hsol, result, hstep, np0, hget, np, hins, hm, rl, hcoll, hposes⟩ :=
      calib_solve_ok_inv _ _ _ _ _ _ _ h
    rcases calib_reinsert_ok_inv _ _ _ hins with ⟨hsf, _⟩ | ⟨_, x, xs, hnp0, hnp⟩
    · cases hsf
    · subst hnp
      subst hm
      refine ⟨⟨x, xs, rfl⟩, rfl, ?_⟩
      intro pvl2 hb2
      cases hb2
      simpa using (calib_build_ok_values _ _ _ _ _ hb).1

/-- C5 witness: the equal-focal property applied at a concrete run with the
identity solver on an empty frame list. -/
theorem calib_xy_same_focal_equal_witness :
    (∃ x xs, (GenericModel.set_params cam_five [100, 100, 50, 50, 1/2]).params
      = x :: x :: xs) ∧
    (GenericModel.set_params cam_five [100, 100, 50, 50, 1/2]).params.getD 0 0
      = (GenericModel.set_params cam_five [100, 100, 50, 50, 1/2]).params.getD 1 0 ∧
    (∀ pvl, calib_build const_pnp [] cam_five true = .ok pvl →
      Values.get pvl.2.1 "params" = some (cam_five.params.eraseIdx 1)) :=
  calib_xy_same_focal_equal id_solver const_pnp [] cam_five 0 false
    (GenericModel.set_params cam_five [100, 100, 50, 50, 1/2]) [] (by decide)
    (by with_unfolding_all rfl)

theorem try_init_camera_unfold (solver : Solver) (pnp : Pnp)
    (mk_ucm : List ℚ → ℕ → ℕ → GenericModel)
    (rdh : FrameFeature → FrameFeature → ℚ × HMat)
    (htf : HMat → Option ℚ)
    (ip : FrameFeature → ℚ → (ℚ × ℚ × ℚ) × (ℚ × ℚ × ℚ))
    (ff0 ff1 : FrameFeature) (fixed_focal : Option ℚ) (u : ℚ)
    (h : htf (rdh ff0 ff1).2 = some u) :
    try_init_camera solver pnp mk_ucm rdh htf ip ff0 ff1 fixed_focal =
      match init_ucm solver pnp mk_ucm ff0 ff1
        ⟨(rtvec_to_na_dvec (ip ff0 (rdh ff0 ff1).1)).1,
         (rtvec_to_na_dvec (ip ff0 (rdh ff0 ff1).1)).2⟩
        ⟨(rtvec_to_na_dvec (ip ff1 (rdh ff0 ff1).1)).1,
         (rtvec_to_na_dvec (ip ff1 (rdh ff0 ff1).1)).2⟩
        (match fixed_focal with
         | some focal => focal
         | none => u * max ((ff0.img_w_h.2 : ℚ) / 2) ((ff0.img_w_h.1 : ℚ) / 2))
        |(rdh ff0 ff1).1| fixed_focal.isSome with
      | .error e => .error e
      | .ok none => .ok none
      | .ok (some c) => if c.params.getD 0 0 = 0 then .ok none else .ok (some c) := by
  simp only [try_init_camera]
  rw [h]

/-- C8: whenever the homography-derived unit-plane focal is extractable,
try_init_camera seeds the initial focal handed to the UCM seed solver as the
unit-plane focal times half of the larger image dimension when no fixed-focal
override is supplied (and as the override when one is), and seeds the initial
alpha as the absolute value of the radial-distortion parameter lambda. -/
theorem try_init_camera_seed_spec (solver : Solver) (pnp : Pnp)
    (mk_ucm : List ℚ → ℕ → ℕ → GenericModel)
    (rdh : FrameFeature → FrameFeature → ℚ × HMat)
    (htf : HMat → Option ℚ)
    (ip : FrameFeature → ℚ → (ℚ × ℚ × ℚ) × (ℚ × ℚ × ℚ))
    (ff0 ff1 : FrameFeature) (fixed_focal : Option ℚ) (u : ℚ)
    (h : htf (rdh ff0 ff1).2 = some u) :
    try_init_camera solver pnp mk_ucm rdh htf ip ff0 ff1 fixed_focal =
      match init_ucm solver pnp mk_ucm ff0 ff1
        ⟨(rtvec_to_na_dvec (ip ff0 (rdh ff0 ff1).1)).1,
         (rtvec_to_na_dvec (ip ff0 (rdh ff0 ff1).1)).2⟩
        ⟨(rtvec_to_na_dvec (ip ff1 (rdh ff0 ff1).1)).1,
         (rtvec_to_na_dvec (ip ff1 (rdh ff0 ff1).1)).2⟩
        (match fixed_focal with
         | some focal => focal
         | none => u * (max (ff0.img_w_h.1 : ℚ) (ff0.img_w_h.2 : ℚ) / 2))
        |(rdh ff0 ff1).1| fixed_focal.isSome with
      | .error e => .error e
      | .ok none => .ok none
      | .ok (some c) => if c.params.getD 0 0 = 0 then .ok none else .ok (some c) := by
  rw [try_init_camera_unfold _ _ _ _ _ _ _ _ _ _ h]
  have hmax : max ((ff0.img_w_h.2 : ℚ) / 2) ((ff0.img_w_h.1 : ℚ) / 2)
      = max (ff0.img_w_h.1 : ℚ) (ff0.img_w_h.2 : ℚ) / 2 := by
    rw [max_div_div_right (by norm_num : (0 : ℚ) ≤ 2), max_comm]
  rw [hmax]

/-- C8 witness: the seeding property applied at concrete collaborators with
unit-plane focal 3, lambda -2 and an 8x4 image (seeded focal 3 * 4 = 12,
seeded alpha 2). -/
theorem try_init_camera_seed_spec_witness :
    try_init_camera id_solver const_pnp mk_ucm_fix rdh_two htf_three ip_lin
      frame_empty_wide frame_empty_wide none =
      match init_ucm id_solver const_pnp mk_ucm_fix frame_empty_wide frame_empty_wide
        ⟨(rtvec_to_na_dvec (ip_lin frame_empty_wide (rdh_two frame_empty_wide frame_empty_wide).1)).1,
         (rtvec_to_na_dvec (ip_lin frame_empty_wide (rdh_two frame_empty_wide frame_empty_wide).1)).2⟩
        ⟨(rtvec_to_na_dvec (ip_lin frame_empty_wide (rdh_two frame_empty_wide frame_empty_wide).1)).1,
         (rtvec_to_na_dvec (ip_lin frame_empty_wide (rdh_two frame_empty_wide frame_empty_wide).1)).2⟩
        (match (none : Option ℚ) with
         | some focal => focal
         | none => 3 * (max (frame_empty_wide.img_w_h.1 : ℚ) (frame_empty_wide.img_w_h.2 : ℚ) / 2))
        |(rdh_two frame_empty_wide frame_empty_wide).1| (none : Option ℚ).isSome with
      | .error e => .error e
      | .ok none => .ok none
      | .ok (some c) => if c.params.getD 0 0 = 0 then .ok none else .ok (some c) :=
  try_init_camera_seed_spec id_solver const_pnp mk_ucm_fix rdh_two htf_three ip_lin
    frame_empty_wide frame_empty_wide none 3 rfl

/-- C10: try_init_camera discards an initialized camera model whose first
parameter equals exactly zero and returns no result even though the
homography focal was extractable and the UCM seed solve converged: an extra
failure condition at the bootstrap interface. -/
theorem try_init_camera_zero_focal_none (solver : Solver) (pnp : Pnp)
    (mk_ucm : List ℚ → ℕ → ℕ → GenericModel)
    (rdh : FrameFeature → FrameFeature → ℚ × HMat)
    (htf : HMat → Option ℚ)
    (ip : FrameFeature → ℚ → (ℚ × ℚ × ℚ) × (ℚ × ℚ × ℚ))
    (ff0 ff1 : FrameFeature) (fixed_focal : Option ℚ) (u : ℚ) (m : GenericModel)
    (hf : htf (rdh ff0 ff1).2 = some u)
    (hinit : init_ucm solver pnp mk_ucm ff0 ff1
      ⟨(rtvec_to_na_dvec (ip ff0 (rdh ff0 ff1).1)).1,
       (rtvec_to_na_dvec (ip ff0 (rdh ff0 ff1).1)).2⟩
      ⟨(rtvec_to_na_dvec (ip ff1 (rdh ff0 ff1).1)).1,
       (rtvec_to_na_dvec (ip ff1 (rdh ff0 ff1).1)).2⟩
      (match fixed_focal with
       | some focal => focal
       | none => u * max ((ff0.img_w_h.2 : ℚ) / 2) ((ff0.img_w_h.1 : ℚ) / 2))
      |(rdh ff0 ff1).1| fixed_focal.isSome = .ok (some m))
    (hzero : m.params.getD 0 0 = 0) :
    try_init_camera solver pnp mk_ucm rdh htf ip ff0 ff1 fixed_focal = .ok none := by
  rw [try_init_camera_unfold _ _ _ _ _ _ _ _ _ _ hf, hinit]
  show (if m.params.getD 0 0 = 0 then Except.ok none else Except.ok (some m))
    = Except.ok none
  rw [if_pos hzero]

/-- C10 witness: a concrete run in which the seed solve converges to focal 0
(identity solver, unit-plane focal 0) and try_init_camera returns no
result. -/
theorem try_init_camera_zero_focal_none_witness :
    try_init_camera id_solver const_pnp mk_ucm_fix rdh_zero htf_zero ip_zero
      frame_empty_small frame_empty_small none = .ok none :=
  try_init_camera_zero_focal_none id_solver const_pnp mk_ucm_fix rdh_zero htf_zero
    ip_zero frame_empty_small frame_empty_small none 0
    (GenericModel.set_params (mk_ucm_fix [0, 0, 1, 1, 0] 2 2) [0, 0, 1, 1, 0])
    rfl (by with_unfolding_all rfl) (by with_unfolding_all rfl)

/-- C9: convert_model builds exactly one model-conversion residual block
whose pixel-grid edge margin is the larger image dimension (truncated to an
integer) divided by 100, initializes the target parameter vector by copying
the four leading source camera parameters into the first four slots (the
remaining slots keep the target values, up to disabled-distortion zeroing of
trailing slots), and on solver success returns the target model with its
parameter vector replaced in place by the converged result. -/
theorem convert_model_spec (solver : Solver)
    (rn : GenericModel → GenericModel → ℕ → ℕ → ℕ)
    (src tgt : GenericModel) (k : ℕ)
    (hcp : src.camera_params.length = 4)
    (hk : k + 4 ≤ tgt.params.length) :
    (∃ rb : ResidualBlock,
      (convert_problem rn src tgt k).1.residual_blocks = [rb] ∧
      rb.cost = CostTag.model_convert_factor src.params tgt.params
        ((max src.width src.height).floor.toNat / 100)
        ((max src.width src.height / 30).floor.toNat)) ∧
    (∃ q : List ℚ,
      Values.get (convert_problem rn src tgt k).2 "params" = some q ∧
      q.take 4 = src.camera_params ∧ q.length = tgt.params.length) ∧
    (∀ result ps,
      solver (convert_problem rn src tgt k).1 (convert_problem rn src tgt k).2
        = some result →
      Values.get result "params" = some ps →
      convert_model solver rn src tgt k = .ok (tgt.set_params ps)) := by
  have hcpb : convert_problem rn src tgt k =
      set_problem_parameter_disabled
        (set_problem_parameter_bound
          (Problem.new.add_residual_block
            (rn src tgt (convert_edge_pixels src) (convert_steps src))
            [("params", tgt.params.length)]
            (CostTag.model_convert_factor src.params tgt.params
              (convert_edge_pixels src) (convert_steps src))
            (some (LossTag.huber 1)))
          tgt false)
        [("params", src.camera_params ++ tgt.params.drop 4)] tgt false k := rfl
  refine ⟨?_, ?_, ?_⟩
  · refine ⟨⟨rn src tgt (convert_edge_pixels src) (convert_steps src),
      [("params", tgt.params.length)],
      CostTag.model_convert_factor src.params tgt.params
        (convert_edge_pixels src) (convert_steps src),
      some (LossTag.huber 1)⟩, ?_, rfl⟩
    rw [hcpb, disabled_residual_blocks, spb_residual_blocks]
    simp [Problem.add_residual_block, Problem.new]
  · obtain ⟨q2, hget, hlen, hoth, hzero⟩ := disabled_get_params
      (set_problem_parameter_bound
        (Problem.new.add_residual_block
          (rn src tgt (convert_edge_pixels src) (convert_steps src))
          [("params", tgt.params.length)]
          (CostTag.model_convert_factor src.params tgt.params
            (convert_edge_pixels src) (convert_steps src))
          (some (LossTag.huber 1)))
        tgt false)
      [("params", src.camera_params ++ tgt.params.drop 4)] tgt false k
      (src.camera_params ++ tgt.params.drop 4) (by simp [Values.get])
    have hinitlen : (src.camera_params ++ tgt.params.drop 4).length
        = tgt.params.length := by
      simp only [List.length_append, List.length_drop, hcp]
      omega
    have h4 : ∀ j, j < 4 → q2[j]? = (src.camera_params ++ tgt.params.drop 4)[j]? := by
      intro j hj
      apply hoth
      intro i hi
      show j ≠ tgt.params.length - 1 - 0 - i
      omega
    have htk : q2.take 4 = (src.camera_params ++ tgt.params.drop 4).take 4 := by
      apply List.ext_getElem?
      intro n
      rw [List.getElem?_take, List.getElem?_take]
      by_cases hn : n < 4
      · rw [if_pos hn, if_pos hn]
        exact h4 n hn
      · rw [if_neg hn, if_neg hn]
    refine ⟨q2, by rw [hcpb]; exact hget, ?_, by rw [hlen, hinitlen]⟩
    rw [htk, ← hcp, List.take_left]
  · intro result ps hsolve hps
    have hcm : convert_model solver rn src tgt k =
        match solver (convert_problem rn src tgt k).1 (convert_problem rn src tgt k).2 with
        | none => .error unwrap_msg
        | some result2 =>
          match Values.get result2 "params" with
          | none => .error unwrap_msg
          | some result_params => .ok (tgt.set_params result_params) := rfl
    rw [hcm, hsolve]
    show (match Values.get result "params" with
      | none => (Except.error unwrap_msg : Except String GenericModel)
      | some result_params => .ok (tgt.set_params result_params))
      = .ok (tgt.set_params ps)
    rw [hps]

/-- C9 witness: the conversion property applied at concrete source and
target models and the identity solver with one disabled distortion. -/
theorem convert_model_spec_witness :
    (∃ rb : ResidualBlock,
      (convert_problem rn_zero src_conv tgt_conv 1).1.residual_blocks = [rb] ∧
      rb.cost = CostTag.model_convert_factor src_conv.params tgt_conv.params
        ((max src_conv.width src_conv.height).floor.toNat / 100)
        ((max src_conv.width src_conv.height / 30).floor.toNat)) ∧
    (∃ q : List ℚ,
      Values.get (convert_problem rn_zero src_conv tgt_conv 1).2 "params" = some q ∧
      q.take 4 = src_conv.camera_params ∧ q.length = tgt_conv.params.length) ∧
    (∀ result ps,
      id_solver (convert_problem rn_zero src_conv tgt_conv 1).1
        (convert_problem rn_zero src_conv tgt_conv 1).2 = some result →
      Values.get result "params" = some ps →
      convert_model id_solver rn_zero src_conv tgt_conv 1
        = .ok (tgt_conv.set_params ps)) :=
  convert_model_spec id_solver rn_zero src_conv tgt_conv 1 rfl (by decide)

theorem id_solver_respects_fixed : SolverRespectsFixed id_solver := by
  intro p v r hr name vec hvec
  have hrv : r = v := by
    have h2 : some v = some r := hr
    exact (Option.some.inj h2).symm
  subst hrv
  exact ⟨vec, hvec, rfl, fun i _ => rfl⟩

/-- C4: for every starting model and count k of disabled trailing distortion
parameters, and every solver honoring per-scalar fixing, the model returned
by calib_camera has exactly 0 in each of the k trailing parameter slots
(counted from the last parameter of the full-length result backward),
whatever their initial values: the slots are zeroed in the initial values,
fixed in the problem for both solver passes, and reinserted unchanged. -/
theorem calib_disabled_distortions_zero (solver : Solver) (pnp : Pnp)
    (frames : List (Option FrameFeature)) (cam : GenericModel) (sf : Bool)
    (k : ℕ) (ff : Bool) (m : GenericModel) (poses : List RvecTvec)
    (hs : SolverRespectsFixed solver)
    (hk : k + 4 ≤ cam.params.length)
    (h : calib_camera solver pnp frames cam sf k ff = .ok (m, poses)) :
    m.params.length = cam.params.length ∧
    ∀ i, i < k → m.params[cam.params.length - 1 - i]? = some 0 := by
  unfold calib_camera at h
  cases hb : calib_build pnp frames cam sf with
  | error e => rw [hb] at h; cases h
  | ok pvl =>
    rw [hb] at h
    replace h : calib_solve solver cam sf ff (calib_stage2 cam sf k pvl) = .ok (m, poses) := h
    obtain ⟨fr, hsol, result, hstep, np0, hget, np, hins, hm, rl, hcoll, hposes⟩ :=
      calib_solve_ok_inv _ _ _ _ _ _ _ h
    have hq0 := (calib_build_ok_values _ _ _ _ _ hb).1
    have hsle : (if sf = true then 1 else 0) = 0 ∨ (if sf = true then 1 else 0) = 1 := by
      cases sf <;> simp
    have hq0len : (if sf = true then cam.params.eraseIdx 1 else cam.params).length
        + (if sf = true then 1 else 0) = cam.params.length := by
      cases sf
      · simp
      · simp only [if_true, List.length_eraseIdx]
        rw [if_pos (by omega)]
        omega
    obtain ⟨q2, hgetq2, hq2len, hoth, hzero⟩ := disabled_get_params
      (set_problem_parameter_bound pvl.1 cam sf) pvl.2.1 cam sf k
      (if sf = true then cam.params.eraseIdx 1 else cam.params) hq0
    have hsget : Values.get (calib_stage2 cam sf k pvl).2.1 "params" = some q2 := by
      rw [calib_stage2_values]
      exact hgetq2
    have hq2zero : ∀ i, i < k →
        q2[cam.params.length - 1 - (if sf = true then 1 else 0) - i]? = some 0 := by
      intro i hi
      exact hzero i hi (by omega)
    have hfixmem : ∀ i, i < k →
        ("params", cam.params.length - 1 - (if sf = true then 1 else 0) - i)
          ∈ (calib_stage2 cam sf k pvl).1.fixed_vars := by
      intro i hi
      rw [calib_stage2_problem]
      exact (disabled_fixed_mem _ _ _ _ _).2 i hi
    obtain ⟨v1, hv1get, hv1len, hv1fix⟩ := hs _ _ _ hsol "params" q2 hsget
    have hkey : ∃ vfin, Values.get result "params" = some vfin ∧
        vfin.length = q2.length ∧
        (∀ i, i < k →
          vfin[cam.params.length - 1 - (if sf = true then 1 else 0) - i]? = some 0) := by
      rcases calib_second_pass_ok_inv _ _ _ _ _ _ hstep with ⟨hff, hres⟩ | ⟨hff, w, hw, hsol2⟩
      · subst hres
        refine ⟨v1, hv1get, hv1len, fun i hi => ?_⟩
        rw [hv1fix _ (hfixmem i hi)]
        exact hq2zero i hi
      · have hfrset : Values.get (fr.set_idx "params" 0 (cam.params.getD 0 0)) "params"
            = some (v1.set 0 (cam.params.getD 0 0)) := by
          rw [values_get_set_idx, hv1get]
          rfl
        obtain ⟨v2, hv2get, hv2len, hv2fix⟩ := hs _ _ _ hsol2 "params" _ hfrset
        refine ⟨v2, hv2get, ?_, ?_⟩
        · rw [hv2len, List.length_set, hv1len]
        · intro i hi
          have hdne : cam.params.length - 1 - (if sf = true then 1 else 0) - i ≠ 0 := by
            omega
          have hmem : ("params", cam.params.length - 1 - (if sf = true then 1 else 0) - i)
              ∈ ((calib_stage2 cam sf k pvl).1.fix_variable "params" 0).fixed_vars := by
            rw [fixv_fixed_vars]
            exact List.mem_append_left _ (hfixmem i hi)
          rw [hv2fix _ hmem, List.getElem?_set_ne hdne.symm,
            hv1fix _ (hfixmem i hi)]
          exact hq2zero i hi
    obtain ⟨vfin, hvget, hvlen, hvzero⟩ := hkey
    have hnp0 : np0 = vfin := Option.some.inj (hget.symm.trans hvget)
    subst hnp0
    rcases calib_reinsert_ok_inv _ _ _ hins with ⟨hsf, hnp⟩ | ⟨hsf, x, xs, hxnp0, hnp⟩
    · subst hnp
      subst hm
      have hs0 : (if sf = true then 1 else 0) = 0 := by rw [hsf]; simp
      simp only [GenericModel.set_params]
      constructor
      · omega
      · intro i hi
        have heq : cam.params.length - 1 - i
            = cam.params.length - 1 - (if sf = true then 1 else 0) - i := by omega
        rw [heq]
        exact hvzero i hi
    · subst hnp
      subst hm
      have hs1 : (if sf = true then 1 else 0) = 1 := by rw [hsf]; simp
      have hlx : np0.length = xs.length + 1 := by rw [hxnp0]; simp
      simp only [GenericModel.set_params]
      constructor
      · simp only [List.length_cons]
        omega
      · intro i hi
        have hd1 : cam.params.length - 1 - i
            = (cam.params.length - 1 - (if sf = true then 1 else 0) - i) + 1 := by omega
        rw [hd1, List.getElem?_cons_succ, ← hxnp0]
        exact hvzero i hi

/-- C4 witness: the trailing-zero property applied at a concrete run: the
six-parameter camera with initial distortion values 7 and 9, two disabled
distortions and the identity solver yields zeros in the last two slots. -/
theorem calib_disabled_distortions_zero_witness :
    (GenericModel.set_params cam_six [100, 100, 50, 50, 0, 0]).params.length
      = cam_six.params.length ∧
    ∀ i, i < 2 →
      (GenericModel.set_params cam_six
        [100, 100, 50, 50, 0, 0]).params[cam_six.params.length - 1 - i]? = some 0 :=
  calib_disabled_distortions_zero id_solver const_pnp [] cam_six false 2 false
    (GenericModel.set_params cam_six [100, 100, 50, 50, 0, 0]) []
    id_solver_respects_fixed (by decide) (by with_unfolding_all rfl)
